import Mathlib

/-!
Verification of the financial-report-analyzer pipeline.

This file gives a shallow embedding, in Lean 4, of the series utilities,
analysis functions, validators, and valuation builder of the repository
(files `scripts/valuation.py`, `skills/chris-stock-master/scripts/series_utils.py`,
`skills/chris-stock-master/scripts/analyze.py`,
`skills/chris-stock-master/scripts/validators.py`), and proves or refutes the
frozen specification claims about them.

Modelling conventions:
* A polars date/value frame is a list of rows `(date, value)`.  Dates are
  modelled as integers (days); values as exact rationals, `Option` marking a
  null cell.  Python floats are modelled by rationals in the analytic layer;
  the construction layer (`to_float`, `series_from_mapping`) uses the richer
  `EFloat` type that distinguishes NaN and the infinities, because claim C1 is
  about exactly that distinction.
* `df.sort("date")` is modelled by a deterministic (stable) insertion sort;
  polars' default sort does not promise an order among equal keys, and no
  claim depends on that order.
* Effectful operations (the network fetch `fetch_fx_rate`, the timestamp
  `datetime.now`) are passed in as parameters.
* Python exceptions (`ZeroDivisionError`, `TypeError` from `float(complex)`,
  `ValueError`) are modelled with `Except`.
-/

/-- Rows of a polars frame with a `date` and a nullable Float64 `value`
column.  Values are exact rationals (see the header on float modelling). -/
abbrev Series := List (Int × Option ℚ)

/-- Helper for the sort model: insert an element into a list sorted by an
integer key, before the first element with a strictly larger key. -/
def insert_sorted {α : Type} (key : α → Int) (x : α) : List α → List α
  | [] => [x]
  | y :: l => if key x ≤ key y then x :: y :: l else y :: insert_sorted key x l

/-- Stable insertion sort by an integer key; models `df.sort("date")` and
Python's `sorted`. -/
def sort_by_key {α : Type} (key : α → Int) : List α → List α
  | [] => []
  | x :: l => insert_sorted key x (sort_by_key key l)

/-- Model of `df.sort("date")`. -/
def sort_by_date {α : Type} (s : List (Int × α)) : List (Int × α) :=
  sort_by_key Prod.fst s

theorem mem_insert_sorted {α : Type} (key : α → Int) (x y : α) (l : List α) :
    y ∈ insert_sorted key x l ↔ y = x ∨ y ∈ l := by
  induction l with
  | nil => simp [insert_sorted]
  | cons z l ih =>
    simp only [insert_sorted]
    split
    · simp
    · simp only [List.mem_cons, ih]
      tauto

theorem mem_sort_by_key {α : Type} (key : α → Int) (y : α) (l : List α) :
    y ∈ sort_by_key key l ↔ y ∈ l := by
  induction l with
  | nil => simp [sort_by_key]
  | cons z l ih =>
    simp only [sort_by_key, mem_insert_sorted, ih, List.mem_cons]

theorem sorted_insert_sorted {α : Type} (key : α → Int) (x : α) (l : List α)
    (h : l.Pairwise (fun a b => key a ≤ key b)) :
    (insert_sorted key x l).Pairwise (fun a b => key a ≤ key b) := by
  induction l with
  | nil => simp [insert_sorted]
  | cons z l ih =>
    rcases List.pairwise_cons.mp h with ⟨hz, hl⟩
    simp only [insert_sorted]
    split
    · refine List.pairwise_cons.mpr ⟨?_, h⟩
      intro b hb
      rcases List.mem_cons.mp hb with rfl | hb
      · omega
      · exact le_trans (by omega) (hz b hb)
    · refine List.pairwise_cons.mpr ⟨?_, ih hl⟩
      intro b hb
      rcases (mem_insert_sorted key x b l).mp hb with rfl | hb
      · omega
      · exact hz b hb

theorem sorted_sort_by_key {α : Type} (key : α → Int) (l : List α) :
    (sort_by_key key l).Pairwise (fun a b => key a ≤ key b) := by
  induction l with
  | nil => simp [sort_by_key]
  | cons z l ih => exact sorted_insert_sorted key z _ ih

theorem length_insert_sorted {α : Type} (key : α → Int) (x : α) (l : List α) :
    (insert_sorted key x l).length = l.length + 1 := by
  induction l with
  | nil => simp [insert_sorted]
  | cons z l ih =>
    simp only [insert_sorted]
    split <;> simp [ih]

theorem length_sort_by_key {α : Type} (key : α → Int) (l : List α) :
    (sort_by_key key l).length = l.length := by
  induction l with
  | nil => rfl
  | cons z l ih => simp [sort_by_key, length_insert_sorted, ih]

theorem getLast?_mem {α : Type} (l : List α) (a : α) (hl : l.getLast? = some a) :
    a ∈ l := by
  induction l with
  | nil => simp at hl
  | cons z l ih =>
    cases l with
    | nil => simp_all
    | cons w l' =>
      rw [List.getLast?_cons_cons] at hl
      exact List.mem_cons_of_mem z (ih hl)

theorem pairwise_getLast?_max {α : Type} (R : α → α → Prop) (l : List α) (a : α)
    (h : l.Pairwise R) (hl : l.getLast? = some a) :
    ∀ x ∈ l, x = a ∨ R x a := by
  induction l with
  | nil => simp at hl
  | cons z l ih =>
    rcases List.pairwise_cons.mp h with ⟨hz, htail⟩
    intro x hx
    cases l with
    | nil =>
      simp only [List.getLast?_singleton, Option.some.injEq] at hl
      subst hl
      rcases List.mem_singleton.mp hx with rfl
      exact Or.inl rfl
    | cons w l' =>
      rw [List.getLast?_cons_cons] at hl
      rcases List.mem_cons.mp hx with rfl | hx
      · exact Or.inr (hz a (getLast?_mem _ a hl))
      · exact ih htail hl x hx

/-- Model of `series_utils.empty_series`. -/
def empty_series : Series := []

/-- Model of polars `drop_nulls` on a date/value frame (dates are never
null in this pipeline, so only null values are dropped). -/
def drop_nulls (s : Series) : Series := s.filter (fun r => r.2.isSome)

/-- Model of `series_utils.series_rows`: drop nulls, sort by date, keep
finite values.  On the exact rationals of this model every value is finite,
so the `is_finite` filter only removes the (already dropped) nulls. -/
def series_rows (s : Series) : List (Int × ℚ) :=
  (sort_by_date (drop_nulls s)).filterMap (fun r => r.2.map (fun v => (r.1, v)))

/-- Python dict upsert used by `series_to_dict`: overwriting keeps the
original position, a new key is appended. -/
def dict_upsert (acc : List (Int × ℚ)) (row : Int × ℚ) : List (Int × ℚ) :=
  if acc.any (fun r => r.1 == row.1) then
    acc.map (fun r => if r.1 == row.1 then (r.1, row.2) else r)
  else acc ++ [row]

/-- Model of `series_utils.series_to_dict` (a Python dict keyed by the ISO
date, modelled as an association list in insertion order, last write wins). -/
def series_to_dict (s : Series) : List (Int × ℚ) :=
  (series_rows s).foldl dict_upsert []

/-- Model of `series_utils.latest_value`. -/
def latest_value (s : Series) : Option ℚ :=
  ((series_rows s).getLast?).map (fun r => r.2)

/-- Model of `valuation.to_series` = `series_from_mapping(data or {})` for a
mapping whose keys have already been parsed to dates and whose values have
already gone through `to_float` (entries whose key fails to parse are absent;
values that `to_float` rejects are `none` and are dropped here, exactly as in
`series_from_mapping`: `df.drop_nulls().sort("date")`). -/
def to_series (mapping : Series) : Series :=
  sort_by_date (drop_nulls mapping)

/-- Model of one row of polars `join_asof(…, strategy="backward")`: the value
of the last row of the (sorted) right frame whose date is at or before `d`;
null when there is none. -/
def join_asof_backward (snapshot_sorted : Series) (d : Int) : Option ℚ :=
  ((snapshot_sorted.filter (fun r => decide (r.1 ≤ d))).getLast?).bind (fun r => r.2)

/-- Model of `valuation.align_to_prices`. -/
def align_to_prices (snapshot prices : Series) : Series :=
  if prices.length = 0 then empty_series
  else
    let prices_sorted := sort_by_date prices
    if snapshot.length = 0 then
      prices_sorted.map (fun r => (r.1, (Option.none : Option ℚ)))
    else
      let snapshot_sorted := sort_by_date snapshot
      prices_sorted.map (fun r => (r.1, join_asof_backward snapshot_sorted r.1))

/-- Model of `valuation.convert_series`. -/
def convert_series (series : Series) (fx_rate : Option ℚ) (apply_conversion : Bool) :
    Series :=
  if series.length = 0 ∨ apply_conversion = false then series
  else
    match fx_rate with
    | Option.none => empty_series
    | some rate => series.map (fun r => (r.1, r.2.map (fun v => v * rate)))

/-- Model of `valuation.percentile`.  The history values are those of
`series_rows` (non-null, finite) that are strictly positive. -/
def percentile (current : Option ℚ) (history : Series) : Option ℚ :=
  match current with
  | Option.none => Option.none
  | some c =>
    if history.length = 0 then Option.none
    else
      let values := ((series_rows history).map (fun r => r.2)).filter
        (fun v => decide (0 < v))
      if values.length = 0 then Option.none
      else some ((values.countP (fun v => decide (v ≤ c)) : ℚ) / (values.length : ℚ) * 100)

/-- Model of `valuation.join_series`: polars inner join on `date`, keeping the
left frame's row order (rows with equal dates are matched pairwise). -/
def join_series (left right : Series) : List (Int × Option ℚ × Option ℚ) :=
  if left.length = 0 ∨ right.length = 0 then []
  else left.flatMap (fun l =>
    (right.filter (fun r => r.1 == l.1)).map (fun r => (l.1, l.2, r.2)))

/-- Model of `valuation.divide_series`.  The trailing `is_finite` filter of the
source drops the null cells produced by the division of a null numerator (on
exact rationals nothing else is non-finite after the zero-denominator filter). -/
def divide_series (numerator denominator : Series) (positive_only : Bool) : Series :=
  let aligned := join_series numerator denominator
  if aligned.length = 0 then empty_series
  else
    let kept := aligned.filter (fun r =>
      match r.2.2 with
      | some d => if positive_only then decide (0 < d) else decide (d ≠ 0)
      | Option.none => false)
    if kept.length = 0 then empty_series
    else
      (kept.map (fun r =>
        (r.1, match r.2.1, r.2.2 with
              | some n, some d => some (n / d)
              | _, _ => (Option.none : Option ℚ)))).filter (fun r => r.2.isSome)

/-- Model of `valuation.add_series` (inner join, sum, `is_finite` filter
dropping null cells). -/
def add_series (left right : Series) : Series :=
  let aligned := join_series left right
  if aligned.length = 0 then empty_series
  else
    (aligned.map (fun r =>
      (r.1, match r.2.1, r.2.2 with
            | some a, some b => some (a + b)
            | _, _ => (Option.none : Option ℚ)))).filter (fun r => r.2.isSome)

/-- Model of `valuation.multiply_series`. -/
def multiply_series (left right : Series) : Series :=
  let aligned := join_series left right
  if aligned.length = 0 then empty_series
  else
    (aligned.map (fun r =>
      (r.1, match r.2.1, r.2.2 with
            | some a, some b => some (a * b)
            | _, _ => (Option.none : Option ℚ)))).filter (fun r => r.2.isSome)

/-- Python `float` values as stored in a polars Float64 column: a finite
value (modelled exactly as a rational), NaN, or one of the infinities. -/
inductive EFloat : Type
  | fin (q : ℚ)
  | nan
  | inf
  | negInf
deriving DecidableEq, Repr

/-- Model of `math.isnan`. -/
def EFloat.isnan : EFloat → Bool
  | .nan => true
  | _ => false

/-- Python values that can appear as a mapping value fed to `to_float`.
The `str` constructor abstracts Python string-to-float parsing to its
outcome: `cleanedEmpty` says whether the string is empty after removing
commas and stripping, and `parsed` is the result of `float(cleaned)`
(`none` for a `ValueError`; note that `float` accepts "inf"/"nan" spellings,
so `parsed` may be a non-finite value). -/
inductive PyVal : Type
  | none
  | bool (b : Bool)
  | int (n : ℤ)
  | float (x : EFloat)
  | str (cleanedEmpty : Bool) (parsed : Option EFloat)
  | other
deriving DecidableEq, Repr

/-- Model of `series_utils.to_float`. -/
def to_float : PyVal → Option EFloat
  | .none => Option.none
  | .bool b => some (.fin (if b then 1 else 0))
  | .int n => some (.fin (n : ℚ))
  | .float x => if x.isnan then Option.none else some x
  | .str cleanedEmpty parsed => if cleanedEmpty then Option.none else parsed
  | .other => Option.none

/-- Mapping keys fed to `parse_datetime`, abstracted to their parse outcome:
`parses s t` is a string `s` that parses to the datetime `t` (distinct
strings may parse to the same datetime, e.g. "2020-01-01" and
"2020-01-01 00:00:00"), `fails s` is a string that does not parse. -/
inductive DateKey : Type
  | parses (s : String) (t : Int)
  | fails (s : String)
deriving DecidableEq, Repr

/-- Model of `series_utils.parse_datetime` on the abstracted keys. -/
def parse_datetime : DateKey → Option Int
  | .parses _ t => some t
  | .fails _ => Option.none

/-- Model of `series_utils.series_from_mapping`.  The mapping is the list of
the dict's key/value pairs in insertion order (dict keys are unique as
strings, but distinct keys may still parse to equal datetimes).  Rows whose
key fails to parse are skipped; then the frame is built, nulls are dropped
and it is sorted by date — exactly `df.drop_nulls().sort("date")`.
`series_from_rows` builds its frame through the same
skip/append/drop_nulls/sort steps and is covered by the same model. -/
def series_from_mapping (mapping : List (DateKey × PyVal)) : List (Int × EFloat) :=
  if mapping.length = 0 then []
  else
    let rows := mapping.filterMap (fun kv =>
      (parse_datetime kv.1).map (fun t => (t, to_float kv.2)))
    if rows.length = 0 then []
    else sort_by_date (rows.filterMap (fun r => r.2.map (fun v => (r.1, v))))

/-- Model of `analyze.normalize_label` (ASCII semantics of `str.isalnum` and
`str.lower`). -/
def normalize_label (s : String) : String :=
  String.mk ((s.data.filter Char.isAlphanum).map Char.toLower)

/-- Lookup in a Python dict comprehension `{f(key): key for key in keys}`:
for colliding images the last key wins. -/
def lookup_last (p : String → Bool) (keys : List String) : Option String :=
  keys.reverse.find? p

/-- Model of `analyze.find_matching_key`: three tiers tried in order —
exact, case-insensitive (via a lowercased-key dict), normalized (via a
`normalize_label` dict) — first hit wins. -/
def find_matching_key (keys candidates : List String) : Option String :=
  match candidates.find? (fun c => keys.contains c) with
  | some c => some c
  | Option.none =>
    match candidates.findSome? (fun c =>
        lookup_last (fun k => k.toLower == c.toLower) keys) with
    | some k => some k
    | Option.none =>
      candidates.findSome? (fun c =>
        lookup_last (fun k => normalize_label k == normalize_label c) keys)

/-- Model of `analyze.series_values` (dates and values of the cleaned rows). -/
def series_values (s : Series) : List Int × List ℚ :=
  ((series_rows s).map (fun r => r.1), (series_rows s).map (fun r => r.2))

/-- Python exceptions that the modelled code can raise. -/
inductive PyError : Type
  | zeroDivision
  | typeError
deriving DecidableEq, Repr

/-- Model of `analyze.compute_cagr`.  The final expression
`(end/start) ** (1/years) - 1` is real-number exponentiation; when the ratio
is negative and the exponent `1/years` is not integral (`years ≠ 1`), Python
returns a complex number and the enclosing `float(...)` raises `TypeError`. -/
noncomputable def compute_cagr (s : Series) : Except PyError (Option ℝ) :=
  let values := (series_values s).2
  if values.length < 2 then .ok Option.none
  else
    let start := values.headI
    let stop := (values.getLast?).getD 0
    if start = 0 then .ok Option.none
    else
      let years : ℕ := max (values.length - 1) 1
      if stop / start < 0 ∧ years ≠ 1 then .error .typeError
      else .ok (some (((stop / start : ℚ) : ℝ) ^ ((1 : ℝ) / (years : ℝ)) - 1))

/-- Trailing windows of `compute_ttm_sum`: for each index from the 4th row
on, the date of that row with the sum of its value and the three preceding
values. -/
def ttm_windows : List (Int × ℚ) → Series
  | a :: b :: c :: d :: rest =>
      (d.1, some (a.2 + b.2 + c.2 + d.2)) :: ttm_windows (b :: c :: d :: rest)
  | _ => []

/-- Model of `analyze.compute_ttm_sum`. -/
def compute_ttm_sum (series : Series) : Series :=
  let r := series_rows series
  if r.length < 4 then empty_series
  else ttm_windows r

/-- The message of a `validate_balance_sheet_equation` result, one constructor
per format string of the source. -/
inductive BalanceMsg : Type
  | skippedMissingData
  | skippedZeroValues
  | validated
  | mismatch
deriving DecidableEq, Repr

/-- The `details` dict of a balance-sheet validation result; absent keys are
`none`. -/
structure BalanceDetails : Type where
  assets : Option ℚ
  liabilities : Option ℚ
  equity : Option ℚ
  difference : Option ℚ
  relative_difference : Option ℚ
  tolerance : Option ℚ
deriving DecidableEq, Repr

/-- A `ValidationResult` as produced by `validate_balance_sheet_equation`. -/
structure BalanceResult : Type where
  passed : Bool
  severity : String
  message : BalanceMsg
  details : Option BalanceDetails
deriving DecidableEq, Repr

/-- Model of `validators.FinancialValidator.validate_balance_sheet_equation`
(the returned result; the appending to `self.results` is bookkeeping outside
the claims). -/
def validate_balance_sheet_equation (assets liabilities equity : Option ℚ)
    (tolerance : ℚ) : BalanceResult :=
  match assets, liabilities, equity with
  | some a, some l, some e =>
    if a = 0 ∨ (l = 0 ∧ e = 0) then
      { passed := true, severity := "info", message := .skippedZeroValues,
        details := Option.none }
    else
      let expected := l + e
      let difference := |a - expected|
      let relative_diff := if a ≠ 0 then difference / |a| else 0
      if relative_diff ≤ tolerance then
        { passed := true, severity := "info", message := .validated,
          details := some ⟨some a, some l, some e, some difference,
            some relative_diff, Option.none⟩ }
      else
        { passed := false, severity := "warning", message := .mismatch,
          details := some ⟨some a, some l, some e, some difference,
            some relative_diff, some tolerance⟩ }
  | a, l, e =>
    { passed := true, severity := "info", message := .skippedMissingData,
      details := some ⟨a, l, e, Option.none, Option.none, Option.none⟩ }

/-- The message of a `validate_time_series_frequency` result. -/
inductive FreqMsg : Type
  | skippedInsufficientData
  | skippedNoIntervals
  | regular
  | irregular
deriving DecidableEq, Repr

/-- One entry of the `irregular_intervals` list. -/
structure GapInfo : Type where
  fromDate : Int
  toDate : Int
  days : Int
deriving DecidableEq, Repr

/-- The `details` dict of a frequency validation result. -/
structure FreqDetails : Type where
  expected_frequency : String
  average_interval_days : ℚ
  intervals : Option (List Int)
  irregular_intervals : Option (List GapInfo)
deriving DecidableEq, Repr

/-- A `ValidationResult` as produced by `validate_time_series_frequency`. -/
structure FreqResult : Type where
  passed : Bool
  severity : String
  message : FreqMsg
  details : Option FreqDetails
deriving DecidableEq, Repr

/-- Model of `validators.FinancialValidator.validate_time_series_frequency`.
An unknown frequency raises `ValueError`, modelled as `Except.error`. -/
def validate_time_series_frequency (dates : List Int) (expected_frequency : String)
    (tolerance_days : Int) : Except String FreqResult :=
  if dates.length < 2 then
    .ok { passed := true, severity := "info", message := .skippedInsufficientData,
          details := Option.none }
  else
    match (if expected_frequency = "quarterly" then
             some (85 - tolerance_days, 95 + tolerance_days)
           else if expected_frequency = "annual" then
             some (360 - tolerance_days, 370 + tolerance_days)
           else Option.none) with
    | Option.none => .error ("Unknown frequency: " ++ expected_frequency)
    | some bounds =>
      let min_days := bounds.1
      let max_days := bounds.2
      let sorted_dates := sort_by_key id dates
      let pairs := sorted_dates.zip sorted_dates.tail
      let intervals := pairs.map (fun p => p.2 - p.1)
      let irregular_intervals := pairs.filterMap (fun p =>
        if min_days ≤ p.2 - p.1 ∧ p.2 - p.1 ≤ max_days then Option.none
        else some (⟨p.1, p.2, p.2 - p.1⟩ : GapInfo))
      if intervals.length = 0 then
        .ok { passed := true, severity := "info", message := .skippedNoIntervals,
              details := Option.none }
      else
        let avg : ℚ := (intervals.sum : ℚ) / (intervals.length : ℚ)
        if irregular_intervals.length = 0 then
          .ok { passed := true, severity := "info", message := .regular,
                details := some ⟨expected_frequency, avg, some intervals, Option.none⟩ }
        else
          .ok { passed := false, severity := "warning", message := .irregular,
                details := some ⟨expected_frequency, avg, Option.none,
                  some irregular_intervals⟩ }

/-- The `assumptions` sub-dict of a DCF result. -/
structure DcfAssumptions : Type where
  discount_rate : ℚ
  growth_rate : ℚ
  terminal_growth : ℚ
  years : ℕ
deriving DecidableEq, Repr

/-- The result dict of `compute_dcf` when non-empty; keys only present in
some branches are `Option`. -/
structure DcfPayload : Type where
  assumptions : DcfAssumptions
  enterprise_value : ℚ
  net_debt : Option ℚ
  equity_value : Option ℚ
  per_share : Option ℚ
deriving DecidableEq, Repr

/-- The present-value loop of `compute_dcf`:
`pv += fcf * (1+g)**year / (1+r)**year` for `year` in `1..years`; each
division checks the Python `ZeroDivisionError` condition. -/
def pv_sum (fcf g r : ℚ) : ℕ → Except PyError ℚ
  | 0 => .ok 0
  | n + 1 =>
    match pv_sum fcf g r n with
    | .error e => .error e
    | .ok acc =>
      if (1 + r) ^ (n + 1) = 0 then .error .zeroDivision
      else .ok (acc + fcf * (1 + g) ^ (n + 1) / (1 + r) ^ (n + 1))

/-- Model of `valuation.compute_dcf`.  Returns `ok none` for the empty dict
`{}` (missing or non-positive free cash flow); raises `ZeroDivisionError`
when a denominator is zero. -/
def compute_dcf (free_cash_flow net_debt shares_outstanding : Option ℚ)
    (discount_rate growth_rate terminal_growth : ℚ) (years : ℕ) :
    Except PyError (Option DcfPayload) :=
  match free_cash_flow with
  | Option.none => .ok Option.none
  | some fcf =>
    if fcf ≤ 0 then .ok Option.none
    else
      match pv_sum fcf growth_rate discount_rate years with
      | .error e => .error e
      | .ok pv =>
        if discount_rate - terminal_growth = 0 then .error .zeroDivision
        else
          let terminal_value := fcf * (1 + growth_rate) ^ years *
            (1 + terminal_growth) / (discount_rate - terminal_growth)
          if (1 + discount_rate) ^ years = 0 then .error .zeroDivision
          else
            let pv_terminal := terminal_value / (1 + discount_rate) ^ years
            let enterprise_value := pv + pv_terminal
            let assumptions : DcfAssumptions :=
              ⟨discount_rate, growth_rate, terminal_growth, years⟩
            match net_debt with
            | Option.none =>
              .ok (some ⟨assumptions, enterprise_value, Option.none,
                Option.none, Option.none⟩)
            | some nd =>
              let equity_value := enterprise_value - nd
              let per_share : Option ℚ :=
                match shares_outstanding with
                | some sh => if sh = 0 then Option.none else some (equity_value / sh)
                | Option.none => Option.none
              .ok (some ⟨assumptions, enterprise_value, some nd,
                some equity_value, per_share⟩)

/-- The relevant part of the `info` dict of the fetched data. -/
structure InfoData : Type where
  currency : Option String
  financialCurrency : Option String
deriving DecidableEq, Repr

/-- The mappings of the analysis payload that `build_valuation` reads (each
is a date/value mapping in insertion order, as fed to `to_series`). -/
structure AnalysisInput : Type where
  symbol : Option String
  eps_ttm : Series
  sales_ttm : Series
  ebitda_ttm : Series
  book_per_share : Series
  net_debt_per_share : Series
  shares_outstanding : Series
  net_debt : Series
  free_cash_flow : Series
deriving DecidableEq, Repr

/-- The `currency` block of the valuation payload. -/
structure CurrencyBlock : Type where
  market : Option String
  financial : Option String
  fx_rate : ℚ
  converted : Bool
deriving DecidableEq, Repr

/-- The `window.snapshot_points` block (heights of the converted snapshot
series). -/
structure SnapshotPoints : Type where
  eps_ttm : ℕ
  sales_ttm : ℕ
  ebitda_ttm : ℕ
  book_per_share : ℕ
  net_debt_per_share : ℕ
  shares_outstanding : ℕ
deriving DecidableEq, Repr

/-- The `window` block of the valuation payload. -/
structure WindowBlock : Type where
  start : Option Int
  stop : Option Int
  price_points : ℕ
  valuation_days : ℕ
  snapshot_points : SnapshotPoints
deriving DecidableEq, Repr

/-- The `current` block of the valuation payload. -/
structure CurrentBlock : Type where
  date : Option Int
  price : Option ℚ
  market_cap : Option ℚ
deriving DecidableEq, Repr

/-- The `metrics` block of the valuation payload. -/
structure MetricsBlock : Type where
  pe : Option ℚ
  ps : Option ℚ
  pb : Option ℚ
  ev_to_ebitda : Option ℚ
deriving DecidableEq, Repr

/-- The `history` block of the valuation payload. -/
structure HistoryBlock : Type where
  pe : List (Int × ℚ)
  ps : List (Int × ℚ)
  pb : List (Int × ℚ)
  ev_to_ebitda : List (Int × ℚ)
deriving DecidableEq, Repr

/-- The `percentiles` block of the valuation payload. -/
structure PercentilesBlock : Type where
  pe : Option ℚ
  ps : Option ℚ
  pb : Option ℚ
  ev_to_ebitda : Option ℚ
deriving DecidableEq, Repr

/-- The valuation payload built by `build_valuation` (`window.end` is named
`stop` here; `generated_at` is the injected clock value). -/
structure ValuationPayload : Type where
  symbol : Option String
  generated_at : Int
  window : WindowBlock
  current : CurrentBlock
  metrics : MetricsBlock
  history : HistoryBlock
  percentiles : PercentilesBlock
  currency : CurrencyBlock
  dcf : Option DcfPayload
deriving Repr

/-- Model of `valuation.build_valuation`.  Effect parameters:
`fx_fetch_result` is the value returned by the network call
`fetch_fx_rate(financial_currency, market_currency)` (only consulted when the
currencies mismatch), `generated_at` the clock reading, and `price_series`
the frame `to_price_series(data)` (payload extraction is outside the claims).
A `ZeroDivisionError` escaping `compute_dcf` propagates. -/
def build_valuation (fx_fetch_result : Option ℚ) (generated_at : Int)
    (info : InfoData) (price_series : Series) (analysis : AnalysisInput) :
    Except PyError ValuationPayload :=
  let market_currency := info.currency
  let financial_currency :=
    match info.financialCurrency with
    | some c => some c
    | Option.none => market_currency
  let mismatch0 : Bool :=
    match market_currency, financial_currency with
    | some m, some f => m != f
    | _, _ => false
  let fx_pair : ℚ × Bool :=
    if mismatch0 then
      match fx_fetch_result with
      | Option.none => (1, false)
      | some r => (r, true)
    else (1, mismatch0)
  let fx_rate := fx_pair.1
  let currency_mismatch := fx_pair.2
  let eps_ttm := convert_series (to_series analysis.eps_ttm) (some fx_rate) currency_mismatch
  let sales_ttm := convert_series (to_series analysis.sales_ttm) (some fx_rate) currency_mismatch
  let ebitda_ttm := convert_series (to_series analysis.ebitda_ttm) (some fx_rate) currency_mismatch
  let book_per_share := convert_series (to_series analysis.book_per_share) (some fx_rate) currency_mismatch
  let net_debt_per_share := convert_series (to_series analysis.net_debt_per_share) (some fx_rate) currency_mismatch
  let shares_outstanding := to_series analysis.shares_outstanding
  let eps_daily := align_to_prices eps_ttm price_series
  let sales_daily := align_to_prices sales_ttm price_series
  let ebitda_daily := align_to_prices ebitda_ttm price_series
  let book_daily := align_to_prices book_per_share price_series
  let net_debt_daily := align_to_prices net_debt_per_share price_series
  let shares_daily := align_to_prices shares_outstanding price_series
  let pe_daily := divide_series price_series eps_daily true
  let ps_daily := divide_series price_series sales_daily true
  let pb_daily := divide_series price_series book_daily true
  let ev_to_ebitda_daily :=
    divide_series (add_series price_series net_debt_daily) ebitda_daily true
  let market_cap_daily := multiply_series price_series shares_daily
  let price_rows := series_rows price_series
  let latest_date := (price_rows.getLast?).map (fun r => r.1)
  let current_price := (price_rows.getLast?).map (fun r => r.2)
  let current_market_cap := latest_value market_cap_daily
  let current_metrics : MetricsBlock :=
    ⟨latest_value pe_daily, latest_value ps_daily, latest_value pb_daily,
      latest_value ev_to_ebitda_daily⟩
  let metric_dates :=
    ((series_rows pe_daily).map (fun r => r.1) ++
     (series_rows ps_daily).map (fun r => r.1) ++
     (series_rows pb_daily).map (fun r => r.1) ++
     (series_rows ev_to_ebitda_daily).map (fun r => r.1)).dedup
  let window_start := metric_dates.min?
  let fcf_ttm_total := convert_series (to_series analysis.free_cash_flow) (some fx_rate) currency_mismatch
  let net_debt_total := convert_series (to_series analysis.net_debt) (some fx_rate) currency_mismatch
  let fcf_latest := latest_value (align_to_prices fcf_ttm_total price_series)
  let net_debt_latest := latest_value (align_to_prices net_debt_total price_series)
  let shares_latest := latest_value (align_to_prices shares_outstanding price_series)
  match compute_dcf fcf_latest net_debt_latest shares_latest
      (1/10) (1/20) (1/50) 5 with
  | .error e => .error e
  | .ok dcf =>
    .ok {
      symbol := analysis.symbol
      generated_at := generated_at
      window := {
        start := window_start
        stop := latest_date
        price_points := price_rows.length
        valuation_days := metric_dates.length
        snapshot_points := ⟨eps_ttm.length, sales_ttm.length, ebitda_ttm.length,
          book_per_share.length, net_debt_per_share.length,
          shares_outstanding.length⟩ }
      current := ⟨latest_date, current_price, current_market_cap⟩
      metrics := current_metrics
      history := ⟨series_to_dict pe_daily, series_to_dict ps_daily,
        series_to_dict pb_daily, series_to_dict ev_to_ebitda_daily⟩
      percentiles := ⟨percentile current_metrics.pe pe_daily,
        percentile current_metrics.ps ps_daily,
        percentile current_metrics.pb pb_daily,
        percentile current_metrics.ev_to_ebitda ev_to_ebitda_daily⟩
      currency := ⟨market_currency, financial_currency, fx_rate,
        currency_mismatch && true⟩
      dcf := dcf }

theorem pv_sum_ok (fcf g r : ℚ) (h : (1 : ℚ) + r ≠ 0) (n : ℕ) :
    ∃ q, pv_sum fcf g r n = .ok q := by
  induction n with
  | zero => exact ⟨0, rfl⟩
  | succ n ih =>
    rcases ih with ⟨q, hq⟩
    refine ⟨q + fcf * (1 + g) ^ (n + 1) / (1 + r) ^ (n + 1), ?_⟩
    simp only [pv_sum, hq]
    rw [if_neg (pow_ne_zero _ h)]

/-- Claim C10: `compute_dcf` guards only the sign of the free-cash-flow base;
with `free_cash_flow = 100 > 0` and `discount_rate = terminal_growth = 1/10`
the Gordon-growth terminal value divides by zero and the call raises
`ZeroDivisionError` instead of returning a result, while a missing or
non-positive base returns the empty dict — so totality rests on the unstated
precondition `discount_rate > terminal_growth`. -/
theorem compute_dcf_zero_division :
    compute_dcf (some 100) Option.none Option.none (1/10) (1/20) (1/10) 5 =
      .error PyError.zeroDivision ∧
    (0 : ℚ) < 100 ∧
    compute_dcf Option.none Option.none Option.none (1/10) (1/20) (1/10) 5 =
      .ok Option.none ∧
    compute_dcf (some (-5)) Option.none Option.none (1/10) (1/20) (1/10) 5 =
      .ok Option.none := by
  obtain ⟨q, hq⟩ := pv_sum_ok 100 (1/20) (1/10) (by norm_num) 5
  refine ⟨?_, by norm_num, rfl, ?_⟩
  · simp only [compute_dcf, hq]
    rw [if_neg (by norm_num : ¬ (100 : ℚ) ≤ 0), if_pos (by norm_num : (1:ℚ)/10 - 1/10 = 0)]
  · simp only [compute_dcf]
    rw [if_pos (by norm_num : (-5 : ℚ) ≤ 0)]

/-- Mapping used to refute claim C1: two distinct dict keys that parse to the
same date, one value `float("inf")`, one finite. -/
def c1_mapping : List (DateKey × PyVal) :=
  [(DateKey.parses "2020-01-01" 1, PyVal.float EFloat.inf),
   (DateKey.parses "2020-01-01 00:00:00" 1, PyVal.float (EFloat.fin 5))]

/-- Claim C1 as stated is false: `series_from_mapping` stores `+Inf` (only
NaN floats are mapped to null by `to_float`; infinities survive
`drop_nulls`), and two distinct keys parsing to the same datetime leave
duplicate, non-strictly-increasing timestamps (nothing is last-write-wins
deduplicated). -/
theorem series_from_mapping_counterexample :
    series_from_mapping c1_mapping = [(1, EFloat.inf), (1, EFloat.fin 5)] ∧
    ¬ ((series_from_mapping c1_mapping).Pairwise (fun a b => a.1 < b.1) ∧
       ∀ r ∈ series_from_mapping c1_mapping,
         r.2 ≠ EFloat.nan ∧ r.2 ≠ EFloat.inf ∧ r.2 ≠ EFloat.negInf) := by
  decide

/-- Claim C1, amended: timestamps of a constructed series are sorted
non-decreasingly (duplicates may remain when distinct keys parse to equal
datetimes), and every stored row comes from an entry whose key parsed and
whose value `to_float` accepted — in particular Python `None` and float NaN
values are dropped at construction and nulls are never stored, but `±Inf`
(and non-finite numeric strings) pass `to_float` and are stored. -/
theorem series_from_mapping_invariants (mapping : List (DateKey × PyVal)) :
    (series_from_mapping mapping).Pairwise (fun a b => a.1 ≤ b.1) ∧
    (∀ r ∈ series_from_mapping mapping,
      ∃ kv ∈ mapping, parse_datetime kv.1 = some r.1 ∧ to_float kv.2 = some r.2) ∧
    to_float (PyVal.float EFloat.nan) = Option.none ∧
    to_float PyVal.none = Option.none := by
  refine ⟨?_, ?_, rfl, rfl⟩
  · unfold series_from_mapping
    split
    · simp
    · dsimp only
      split
      · simp
      · exact sorted_sort_by_key _ _
  · intro r hr
    unfold series_from_mapping at hr
    split at hr
    · simp at hr
    · dsimp only at hr
      split at hr
      · simp at hr
      · rw [sort_by_date, mem_sort_by_key, List.mem_filterMap] at hr
        rcases hr with ⟨row, hrow, hmap⟩
        rcases Option.map_eq_some'.mp hmap with ⟨v, hv2, hvr⟩
        rw [List.mem_filterMap] at hrow
        rcases hrow with ⟨kv, hkv, hkvmap⟩
        rcases Option.map_eq_some'.mp hkvmap with ⟨t, hpt, hrow_eq⟩
        subst hrow_eq
        subst hvr
        refine ⟨kv, hkv, ?_, ?_⟩
        · simpa using hpt
        · simpa using hv2

/-- Witness for `series_from_mapping_invariants` at the concrete mapping:
the stored row `(1, +Inf)` indeed originates from an accepted entry. -/
theorem series_from_mapping_invariants_witness :
    ∃ kv ∈ c1_mapping, parse_datetime kv.1 = some 1 ∧
      to_float kv.2 = some EFloat.inf :=
  (series_from_mapping_invariants c1_mapping).2.1 (1, EFloat.inf) (by decide)

/-- Claim C2: `align_to_prices` is a backward as-of join — every output row
keeps a price date, and its value is that of the most recent snapshot dated
at or before that price date (never a later one), null when no snapshot is
that old; in particular fundamentals `[Jan 1: 5, Apr 1: 6]` aligned onto
price dates `[Jan 15, Feb 15, Apr 15]` yield `[5, 5, 6]` (days of year:
1, 91; 15, 46, 105). -/
theorem align_to_prices_backward_asof :
    (∀ (snapshot prices : Series), ∀ pr ∈ align_to_prices snapshot prices,
      (∃ q ∈ prices, q.1 = pr.1) ∧
      ((∃ s ∈ snapshot, s.1 ≤ pr.1) →
        ∃ s ∈ snapshot, s.1 ≤ pr.1 ∧ pr.2 = s.2 ∧
          ∀ s' ∈ snapshot, s'.1 ≤ pr.1 → s'.1 ≤ s.1) ∧
      ((∀ s ∈ snapshot, ¬ s.1 ≤ pr.1) → pr.2 = Option.none)) ∧
    align_to_prices [(1, some 5), (91, some 6)]
        [(15, some 1), (46, some 1), (105, some 1)] =
      [(15, some 5), (46, some 5), (105, some 6)] := by
  constructor
  · intro snapshot prices pr hpr
    unfold align_to_prices at hpr
    split at hpr
    · simp [empty_series] at hpr
    · dsimp only at hpr
      split at hpr
      · rename_i hsnap
        rcases List.mem_map.mp hpr with ⟨p, hp, rfl⟩
        rw [List.length_eq_zero] at hsnap
        subst hsnap
        refine ⟨⟨p, (mem_sort_by_key Prod.fst p prices).mp hp, rfl⟩, ?_, fun _ => rfl⟩
        rintro ⟨s, hs, -⟩
        simp at hs
      · rcases List.mem_map.mp hpr with ⟨p, hp, rfl⟩
        refine ⟨⟨p, (mem_sort_by_key Prod.fst p prices).mp hp, rfl⟩, ?_, ?_⟩
        · rintro ⟨s0, hs0, hle0⟩
          have hs0' : s0 ∈ (sort_by_date snapshot).filter
              (fun r => decide (r.1 ≤ p.1)) := by
            rw [List.mem_filter]
            exact ⟨(mem_sort_by_key Prod.fst s0 snapshot).mpr hs0, by simpa using hle0⟩
          cases h : ((sort_by_date snapshot).filter
              (fun r => decide (r.1 ≤ p.1))).getLast? with
          | none =>
            rw [List.getLast?_eq_none_iff] at h
            rw [h] at hs0'
            simp at hs0'
          | some a =>
            have ha := getLast?_mem _ a h
            have hafilter := List.mem_filter.mp ha
            have hamem : a ∈ snapshot :=
              (mem_sort_by_key Prod.fst a snapshot).mp hafilter.1
            have hale : a.1 ≤ p.1 := by simpa using hafilter.2
            have hsorted : ((sort_by_date snapshot).filter
                (fun r => decide (r.1 ≤ p.1))).Pairwise (fun x y => x.1 ≤ y.1) :=
              List.Pairwise.sublist (List.filter_sublist _) (sorted_sort_by_key Prod.fst snapshot)
            refine ⟨a, hamem, hale, ?_, ?_⟩
            · show join_asof_backward (sort_by_date snapshot) p.1 = a.2
              rw [join_asof_backward, h]
              rfl
            · intro s' hs' hle'
              have hs'' : s' ∈ (sort_by_date snapshot).filter
                  (fun r => decide (r.1 ≤ p.1)) := by
                rw [List.mem_filter]
                exact ⟨(mem_sort_by_key Prod.fst s' snapshot).mpr hs', by simpa using hle'⟩
              rcases pairwise_getLast?_max _ _ a hsorted h s' hs'' with rfl | hR
              · exact le_refl _
              · exact hR
        · intro hnone
          show join_asof_backward (sort_by_date snapshot) p.1 = Option.none
          rw [join_asof_backward]
          have : (sort_by_date snapshot).filter (fun r => decide (r.1 ≤ p.1)) = [] := by
            rw [List.filter_eq_nil_iff]
            intro a ha
            simpa using hnone a ((mem_sort_by_key Prod.fst a snapshot).mp ha)
          rw [this]
          rfl
  · decide

/-- Witness for `align_to_prices_backward_asof` at the concrete example: the
price date Apr 15 (day 105) picks up the Apr 1 (day 91) snapshot value 6. -/
theorem align_to_prices_backward_asof_witness :
    ∃ s ∈ ([(1, some 5), (91, some 6)] : Series),
      s.1 ≤ (105 : Int) ∧ (some (6 : ℚ)) = s.2 ∧
      ∀ s' ∈ ([(1, some 5), (91, some 6)] : Series),
        s'.1 ≤ (105 : Int) → s'.1 ≤ s.1 :=
  (align_to_prices_backward_asof.1 [(1, some 5), (91, some 6)]
    [(15, some 1), (46, some 1), (105, some 1)] (105, some 6) (by decide)).2.1
    (by decide)

theorem lookup_last_eq_none (p : String → Bool) (keys : List String) :
    lookup_last p keys = Option.none ↔ ∀ k ∈ keys, ¬ p k := by
  rw [lookup_last, List.find?_eq_none]
  constructor
  · intro h k hk
    exact h k (List.mem_reverse.mpr hk)
  · intro h k hk
    exact h k (List.mem_reverse.mp hk)

theorem lookup_last_some (p : String → Bool) (keys : List String) (k : String)
    (h : lookup_last p keys = some k) : k ∈ keys ∧ p k := by
  rw [lookup_last] at h
  exact ⟨List.mem_reverse.mp (List.mem_of_find?_eq_some h), List.find?_some h⟩

/-- Claim C4: in `find_matching_key` the three matching tiers are tried in
order with the first hit winning: when any candidate has an exact
case-sensitive match the returned key is an exact match; a case-insensitive
exact match is only returned when no exact match exists; and a normalized
match only when neither of the first two tiers hits. -/
theorem find_matching_key_tier_order (keys candidates : List String) :
    (∀ c ∈ candidates, c ∈ keys →
      ∃ k, find_matching_key keys candidates = some k ∧ k ∈ keys ∧ k ∈ candidates) ∧
    ((∀ c ∈ candidates, c ∉ keys) →
      ∀ c ∈ candidates, ∀ k ∈ keys, k.toLower = c.toLower →
        ∃ k', find_matching_key keys candidates = some k' ∧ k' ∈ keys ∧
          ∃ c' ∈ candidates, k'.toLower = c'.toLower) ∧
    ((∀ c ∈ candidates, c ∉ keys ∧ ∀ k ∈ keys, k.toLower ≠ c.toLower) →
      ∀ c ∈ candidates, ∀ k ∈ keys, normalize_label k = normalize_label c →
        ∃ k', find_matching_key keys candidates = some k' ∧ k' ∈ keys ∧
          ∃ c' ∈ candidates, normalize_label k' = normalize_label c') := by
  refine ⟨?_, ?_, ?_⟩
  · intro c hc hck
    have hsome : (candidates.find? (fun c => keys.contains c)).isSome := by
      rw [List.find?_isSome]
      exact ⟨c, hc, by simpa [List.elem_iff] using hck⟩
    cases hfind : candidates.find? (fun c => keys.contains c) with
    | none => rw [hfind] at hsome; simp at hsome
    | some c0 =>
      refine ⟨c0, ?_, ?_, List.mem_of_find?_eq_some hfind⟩
      · rw [find_matching_key, hfind]
      · have := List.find?_some hfind
        simpa [List.elem_iff] using this
  · intro hnoexact c hc k hk hlow
    have hfind : candidates.find? (fun c => keys.contains c) = Option.none := by
      rw [List.find?_eq_none]
      intro x hx
      simpa [List.elem_iff] using hnoexact x hx
    have hci : ¬ (candidates.findSome? (fun c =>
        lookup_last (fun k => k.toLower == c.toLower) keys) = Option.none) := by
      rw [List.findSome?_eq_none_iff]
      intro hall
      have := (lookup_last_eq_none _ keys).mp (hall c hc) k hk
      simp [hlow] at this
    cases hcifind : candidates.findSome? (fun c =>
        lookup_last (fun k => k.toLower == c.toLower) keys) with
    | none => exact absurd hcifind hci
    | some k' =>
      rcases List.exists_of_findSome?_eq_some hcifind with ⟨c', hc', hlk⟩
      rcases lookup_last_some _ keys k' hlk with ⟨hk'keys, hk'p⟩
      refine ⟨k', ?_, hk'keys, c', hc', by simpa using hk'p⟩
      rw [find_matching_key, hfind, hcifind]
  · intro hnone c hc k hk hnorm
    have hfind : candidates.find? (fun c => keys.contains c) = Option.none := by
      rw [List.find?_eq_none]
      intro x hx
      simpa [List.elem_iff] using (hnone x hx).1
    have hcifind : candidates.findSome? (fun c =>
        lookup_last (fun k => k.toLower == c.toLower) keys) = Option.none := by
      rw [List.findSome?_eq_none_iff]
      intro x hx
      rw [lookup_last_eq_none]
      intro k0 hk0
      simpa using (hnone x hx).2 k0 hk0
    have hnm : ¬ (candidates.findSome? (fun c =>
        lookup_last (fun k => normalize_label k == normalize_label c) keys) =
          Option.none) := by
      rw [List.findSome?_eq_none_iff]
      intro hall
      have := (lookup_last_eq_none _ keys).mp (hall c hc) k hk
      simp [hnorm] at this
    cases hnmfind : candidates.findSome? (fun c =>
        lookup_last (fun k => normalize_label k == normalize_label c) keys) with
    | none => exact absurd hnmfind hnm
    | some k' =>
      rcases List.exists_of_findSome?_eq_some hnmfind with ⟨c', hc', hlk⟩
      rcases lookup_last_some _ keys k' hlk with ⟨hk'keys, hk'p⟩
      refine ⟨k', ?_, hk'keys, c', hc', by simpa using hk'p⟩
      rw [find_matching_key, hfind, hcifind, hnmfind]

/-- Witness for `find_matching_key_tier_order`: with keys
`["Total Revenue", "REVENUE"]` and candidates `["Revenue", "Total Revenue"]`,
the first candidate has only a case-insensitive hit while the second is an
exact hit, and the exact tier wins. -/
theorem find_matching_key_tier_order_witness :
    ∃ k, find_matching_key ["Total Revenue", "REVENUE"]
        ["Revenue", "Total Revenue"] = some k ∧
      k ∈ ["Total Revenue", "REVENUE"] ∧ k ∈ ["Revenue", "Total Revenue"] :=
  (find_matching_key_tier_order ["Total Revenue", "REVENUE"]
    ["Revenue", "Total Revenue"]).1 "Total Revenue" (by decide) (by decide)

theorem ttm_windows_length : ∀ l : List (Int × ℚ),
    (ttm_windows l).length = l.length - 3
  | [] => rfl
  | [_] => rfl
  | [_, _] => rfl
  | [_, _, _] => rfl
  | a :: b :: c :: d :: rest => by
    have ih := ttm_windows_length (b :: c :: d :: rest)
    simp only [ttm_windows, List.length_cons] at ih ⊢
    omega

theorem ttm_windows_get (l : List (Int × ℚ)) :
    ∀ (k : ℕ) (a b c d : Int × ℚ) (rest : List (Int × ℚ)),
      l.drop k = a :: b :: c :: d :: rest →
      (ttm_windows l)[k]? = some (d.1, some (a.2 + b.2 + c.2 + d.2)) := by
  induction l with
  | nil =>
    intro k a b c d rest h
    rw [List.drop_nil] at h
    cases h
  | cons x t ih =>
    intro k a b c d rest h
    cases k with
    | zero =>
      simp only [List.drop_zero] at h
      rw [h, ttm_windows]
      exact List.getElem?_cons_zero
    | succ k =>
      rw [List.drop_succ_cons] at h
      cases t with
      | nil =>
        rw [List.drop_nil] at h
        cases h
      | cons b1 t1 =>
        cases t1 with
        | nil =>
          have := congrArg List.length h
          simp [List.length_drop] at this
          omega
        | cons c1 t2 =>
          cases t2 with
          | nil =>
            have := congrArg List.length h
            simp [List.length_drop] at this
            omega
          | cons d1 t3 =>
            show (ttm_windows (x :: b1 :: c1 :: d1 :: t3))[k + 1]? = _
            rw [ttm_windows]
            simp only [List.getElem?_cons_succ]
            exact ih k a b c d rest h

/-- Claim C5: `compute_ttm_sum` on a cleaned quarterly series of n ≥ 4 points
returns exactly n − 3 points, the k-th output row carrying the date of row
k + 3 and the sum of that row's value with the three immediately preceding
values; with fewer than 4 points the output is empty (strict 4-quarter rule,
no partial windows).  For input values [1,2,3,4] the output is the single
point 10, and a 3-point input yields the empty series. -/
theorem compute_ttm_sum_spec (series : Series) :
    ((series_rows series).length < 4 → compute_ttm_sum series = []) ∧
    (4 ≤ (series_rows series).length →
      (compute_ttm_sum series).length = (series_rows series).length - 3 ∧
      ∀ (k : ℕ) (a b c d : Int × ℚ) (rest : List (Int × ℚ)),
        (series_rows series).drop k = a :: b :: c :: d :: rest →
        (compute_ttm_sum series)[k]? = some (d.1, some (a.2 + b.2 + c.2 + d.2))) ∧
    compute_ttm_sum [(0, some 1), (1, some 2), (2, some 3), (3, some 4)] =
      [(3, some 10)] ∧
    compute_ttm_sum [(0, some 1), (1, some 2), (2, some 3)] = [] := by
  refine ⟨?_, ?_, ?_, ?_⟩
  · intro h
    rw [compute_ttm_sum, if_pos h]
    rfl
  · intro h
    rw [compute_ttm_sum, if_neg (by omega)]
    exact ⟨ttm_windows_length _, fun k a b c d rest hd => ttm_windows_get _ k a b c d rest hd⟩
  · norm_num [compute_ttm_sum, series_rows, sort_by_date, sort_by_key, insert_sorted,
      drop_nulls, ttm_windows, empty_series, List.filterMap_cons]
  · rw [compute_ttm_sum, if_pos (by decide)]
    rfl

/-- Witness for `compute_ttm_sum_spec` on the 4-point input [1,2,3,4]: the
single output point carries the 4th date and the sum 1+2+3+4. -/
theorem compute_ttm_sum_spec_witness :
    (compute_ttm_sum [(0, some 1), (1, some 2), (2, some 3), (3, some 4)])[0]? =
      some (3, some ((1 : ℚ) + 2 + 3 + 4)) :=
  ((compute_ttm_sum_spec [(0, some 1), (1, some 2), (2, some 3), (3, some 4)]).2.1
    (by decide)).2 0 ((0 : Int), (1 : ℚ)) ((1 : Int), (2 : ℚ)) ((2 : Int), (3 : ℚ))
    ((3 : Int), (4 : ℚ)) [] (by decide)

/-- Claim C6 as stated is false: the numerator of `percentile` counts only the
*positive* historical values at or below the current value, not all
historical values.  With history `[-5, 10]` and current `10` the code returns
100 (1 of 1 positive values ≤ 10), while the claimed formula
`(count of historical values ≤ current) / (count of positive historical
values) × 100` gives 200. -/
theorem percentile_counterexample :
    percentile (some 10) [(0, some (-5)), (1, some 10)] = some 100 ∧
    ((((series_rows [(0, some (-5)), (1, some 10)]).map (fun r => r.2)).countP
        (fun v => decide (v ≤ (10 : ℚ))) : ℚ) /
      ((((series_rows [(0, some (-5)), (1, some 10)]).map (fun r => r.2)).countP
        (fun v => decide (0 < v)) : ℚ)) * 100) = 200 := by
  constructor
  · norm_num [percentile, series_rows, sort_by_date, sort_by_key, insert_sorted,
      drop_nulls, List.filterMap_cons, List.countP_cons]
  · norm_num [series_rows, sort_by_date, sort_by_key, insert_sorted,
      drop_nulls, List.filterMap_cons, List.countP_cons]

/-- Claim C6, amended: `percentile(current, history)` equals
`(count of positive historical values ≤ current) / (count of positive
historical values) × 100`; it returns no value when the (non-null) history
contains no positive value or when the current value is missing.  For
history `[10, 20, 30, 40]` and current `20` the result is 50. -/
theorem percentile_spec (current : ℚ) (history : Series) :
    (((series_rows history).map (fun r => r.2)).filter (fun v => decide (0 < v)) ≠ [] →
      percentile (some current) history =
        some (((((series_rows history).map (fun r => r.2)).filter
            (fun v => decide (0 < v))).countP (fun v => decide (v ≤ current)) : ℚ) /
          ((((series_rows history).map (fun r => r.2)).filter
            (fun v => decide (0 < v))).length : ℚ) * 100)) ∧
    (((series_rows history).map (fun r => r.2)).filter (fun v => decide (0 < v)) = [] →
      percentile (some current) history = Option.none) ∧
    percentile Option.none history = Option.none ∧
    percentile (some 20) [(0, some 10), (1, some 20), (2, some 30), (3, some 40)] =
      some 50 := by
  refine ⟨?_, ?_, rfl, ?_⟩
  · intro h
    have hh : ¬ history.length = 0 := by
      intro h0
      rw [List.length_eq_zero] at h0
      subst h0
      exact h rfl
    simp only [percentile]
    rw [if_neg hh, if_neg (by simpa [List.length_eq_zero] using h)]
  · intro h
    by_cases hh : history.length = 0
    · simp only [percentile]
      rw [if_pos hh]
    · simp only [percentile]
      rw [if_neg hh, if_pos (by simpa [List.length_eq_zero] using h)]
  · norm_num [percentile, series_rows, sort_by_date, sort_by_key, insert_sorted,
      drop_nulls, List.filterMap_cons, List.countP_cons, List.filter_cons]

/-- Witness for `percentile_spec`: a history with one negative and two
positive values, current 20 — the formula over the positive values applies. -/
theorem percentile_spec_witness :
    percentile (some 20) [(0, some (-7)), (1, some 10), (2, some 20)] =
      some (((((series_rows [(0, some (-7)), (1, some 10), (2, some 20)]).map
          (fun r => r.2)).filter (fun v => decide (0 < v))).countP
            (fun v => decide (v ≤ (20 : ℚ))) : ℚ) /
        ((((series_rows [(0, some (-7)), (1, some 10), (2, some 20)]).map
          (fun r => r.2)).filter (fun v => decide (0 < v))).length : ℚ) * 100) :=
  (percentile_spec 20 [(0, some (-7)), (1, some 10), (2, some 20)]).1 (by decide)

/-- Claim C7 as stated is false on its third example: `compute_cagr` only
guards the *start* value against zero, so `cagr([100, 0])` does not return
"no value" — it returns `(0/100)^(1/1) − 1 = −1`. -/
theorem compute_cagr_counterexample :
    compute_cagr [(0, some 100), (1, some 0)] = .ok (some (-1)) ∧
    compute_cagr [(0, some 100), (1, some 0)] ≠ .ok Option.none := by
  have h : compute_cagr [(0, some 100), (1, some 0)] = .ok (some (-1)) := by
    norm_num [compute_cagr, series_values, series_rows, sort_by_date, sort_by_key,
      insert_sorted, drop_nulls, List.filterMap_cons, Real.rpow_one]
  exact ⟨h, by rw [h]; intro hc; simp at hc⟩

/-- Claim C7, amended: on a cleaned series with at least 2 points and nonzero
start value, `compute_cagr` returns `(end/start)^(1/years) − 1` with
`years = pointCount − 1` (which is `max(pointCount − 1, 1)` there), except
that a negative ratio with `years ≠ 1` raises `TypeError` (Python's `float()`
of the complex power); `cagr([100, 100]) = 0`, `cagr([100, 121]) = 21/100`,
and `cagr([100, 0]) = −1`, not "no value". -/
theorem compute_cagr_spec :
    (∀ (s : Series) (v0 vend : ℚ) (vs : List ℚ),
      (series_rows s).map (fun r => r.2) = v0 :: vs →
      vs ≠ [] → v0 ≠ 0 → vs.getLast? = some vend →
      ¬ (vend / v0 < 0 ∧ vs.length ≠ 1) →
      compute_cagr s =
        .ok (some (((vend / v0 : ℚ) : ℝ) ^ ((1 : ℝ) / (vs.length : ℝ)) - 1))) ∧
    (∀ (s : Series) (v0 vend : ℚ) (vs : List ℚ),
      (series_rows s).map (fun r => r.2) = v0 :: vs →
      vs ≠ [] → v0 ≠ 0 → vs.getLast? = some vend →
      (vend / v0 < 0 ∧ vs.length ≠ 1) →
      compute_cagr s = .error PyError.typeError) ∧
    compute_cagr [(0, some 100), (1, some 100)] = .ok (some 0) ∧
    compute_cagr [(0, some 100), (1, some 121)] = .ok (some (21/100)) := by
  have key : ∀ (s : Series) (v0 vend : ℚ) (vs : List ℚ),
      (series_rows s).map (fun r => r.2) = v0 :: vs →
      vs ≠ [] → v0 ≠ 0 → vs.getLast? = some vend →
      compute_cagr s =
        (if vend / v0 < 0 ∧ vs.length ≠ 1 then .error PyError.typeError
         else .ok (some (((vend / v0 : ℚ) : ℝ) ^ ((1 : ℝ) / (vs.length : ℝ)) - 1))) := by
    intro s v0 vend vs hmap hne h0 hlast
    rcases List.exists_cons_of_ne_nil hne with ⟨w, vs', rfl⟩
    have hlen : 1 ≤ (w :: vs').length := by simp
    simp only [compute_cagr, series_values]
    rw [hmap]
    rw [if_neg (by simp)]
    simp only [List.headI_cons]
    rw [if_neg h0]
    rw [List.getLast?_cons_cons] at *
    have hyears : max ((v0 :: w :: vs').length - 1) 1 = (w :: vs').length := by
      simp only [List.length_cons]
      omega
    rw [hyears, hlast]
    rfl
  refine ⟨?_, ?_, ?_, ?_⟩
  · intro s v0 vend vs hmap hne h0 hlast hcond
    rw [key s v0 vend vs hmap hne h0 hlast, if_neg hcond]
  · intro s v0 vend vs hmap hne h0 hlast hcond
    rw [key s v0 vend vs hmap hne h0 hlast, if_pos hcond]
  · have h := key [(0, some 100), (1, some 100)] 100 100 [100] (by decide) (by decide)
      (by norm_num) rfl
    rw [h, if_neg (by norm_num)]
    norm_num [Real.rpow_one]
  · have h := key [(0, some 100), (1, some 121)] 100 121 [121] (by decide) (by decide)
      (by norm_num) rfl
    rw [h, if_neg (by norm_num)]
    norm_num [Real.rpow_one]

/-- Witness for `compute_cagr_spec` at the two-point series [100, 121]. -/
theorem compute_cagr_spec_witness :
    compute_cagr [(0, some 100), (1, some 121)] =
      .ok (some (((121 / 100 : ℚ) : ℝ) ^ ((1 : ℝ) / ((1 : ℕ) : ℝ)) - 1)) :=
  compute_cagr_spec.1 [(0, some 100), (1, some 121)] 100 121 [121] (by decide)
    (by decide) (by norm_num) rfl (by norm_num)

/-- Claim C8 as stated is false: the check is NOT skipped whenever some input
is zero — with `assets = 100, liabilities = 0, equity = 80` (liabilities
zero, equity nonzero) the code runs the check and records a warning-level
failure with 20% relative difference, not an info-level pass. -/
theorem validate_balance_sheet_counterexample :
    validate_balance_sheet_equation (some 100) (some 0) (some 80) (1/100) =
      { passed := false, severity := "warning", message := .mismatch,
        details := some ⟨some 100, some 0, some 80, some 20, some (1/5),
          some (1/100)⟩ } ∧
    ¬ ((validate_balance_sheet_equation (some 100) (some 0) (some 80)
        (1/100)).passed = true ∧
       (validate_balance_sheet_equation (some 100) (some 0) (some 80)
        (1/100)).severity = "info") := by
  have h : validate_balance_sheet_equation (some 100) (some 0) (some 80) (1/100) =
      { passed := false, severity := "warning", message := .mismatch,
        details := some ⟨some 100, some 0, some 80, some 20, some (1/5),
          some (1/100)⟩ } := by
    norm_num [validate_balance_sheet_equation, abs_of_pos, abs_of_nonneg]
  refine ⟨h, ?_⟩
  rw [h]
  intro hc
  simp at hc

/-- Claim C8, amended: the check is skipped (info-level pass) exactly when an
input is missing, the assets are zero, or liabilities and equity are both
zero; otherwise it passes iff `|assets − (liabilities + equity)| / |assets| ≤
tolerance`.  `(100, 60, 40)` passes at 1% tolerance and `(100, 60, 30)`
fails, reporting a 10% relative difference. -/
theorem validate_balance_sheet_spec (a l e tol : ℚ) (ha : ¬ a = 0)
    (hze : ¬ (l = 0 ∧ e = 0)) :
    ((validate_balance_sheet_equation (some a) (some l) (some e) tol).passed = true ↔
      |a - (l + e)| / |a| ≤ tol) ∧
    (validate_balance_sheet_equation Option.none (some l) (some e) tol =
      { passed := true, severity := "info", message := .skippedMissingData,
        details := some ⟨Option.none, some l, some e, Option.none, Option.none,
          Option.none⟩ }) ∧
    (validate_balance_sheet_equation (some 0) (some l) (some e) tol =
      { passed := true, severity := "info", message := .skippedZeroValues,
        details := Option.none }) ∧
    validate_balance_sheet_equation (some 100) (some 60) (some 40) (1/100) =
      { passed := true, severity := "info", message := .validated,
        details := some ⟨some 100, some 60, some 40, some 0, some 0,
          Option.none⟩ } ∧
    validate_balance_sheet_equation (some 100) (some 60) (some 30) (1/100) =
      { passed := false, severity := "warning", message := .mismatch,
        details := some ⟨some 100, some 60, some 30, some 10, some (1/10),
          some (1/100)⟩ } := by
  refine ⟨?_, rfl, ?_, ?_, ?_⟩
  · simp only [validate_balance_sheet_equation]
    rw [if_neg (by tauto), if_pos ha]
    split
    · rename_i hle
      simp [hle]
    · rename_i hgt
      simp [hgt]
  · simp [validate_balance_sheet_equation]
  · norm_num [validate_balance_sheet_equation, abs_of_nonneg]
  · norm_num [validate_balance_sheet_equation, abs_of_nonneg]

/-- Witness for `validate_balance_sheet_spec` at `(100, 60, 40)` with 1%
tolerance: the balance identity holds with zero relative difference. -/
theorem validate_balance_sheet_spec_witness :
    (validate_balance_sheet_equation (some 100) (some 60) (some 40)
      (1/100)).passed = true ↔ |(100 : ℚ) - (60 + 40)| / |(100 : ℚ)| ≤ 1/100 :=
  (validate_balance_sheet_spec 100 60 40 (1/100) (by norm_num) (by norm_num)).1

theorem freq_pairs_irr_eq_nil (pairs : List (Int × Int)) (min_days max_days : Int) :
    pairs.filterMap (fun p =>
        if min_days ≤ p.2 - p.1 ∧ p.2 - p.1 ≤ max_days then Option.none
        else some (⟨p.1, p.2, p.2 - p.1⟩ : GapInfo)) = [] ↔
      ∀ p ∈ pairs, min_days ≤ p.2 - p.1 ∧ p.2 - p.1 ≤ max_days := by
  rw [List.filterMap_eq_nil_iff]
  constructor
  · intro h p hp
    have := h p hp
    by_contra hc
    rw [if_neg hc] at this
    cases this
  · intro h p hp
    rw [if_pos (h p hp)]

theorem freq_pairs_mem_irr (pairs : List (Int × Int)) (min_days max_days : Int)
    (g : GapInfo) :
    g ∈ pairs.filterMap (fun p =>
        if min_days ≤ p.2 - p.1 ∧ p.2 - p.1 ≤ max_days then Option.none
        else some (⟨p.1, p.2, p.2 - p.1⟩ : GapInfo)) ↔
      ((g.fromDate, g.toDate) ∈ pairs ∧ g.days = g.toDate - g.fromDate ∧
        ¬ (min_days ≤ g.days ∧ g.days ≤ max_days)) := by
  rw [List.mem_filterMap]
  constructor
  · rintro ⟨p, hp, hite⟩
    by_cases hc : min_days ≤ p.2 - p.1 ∧ p.2 - p.1 ≤ max_days
    · rw [if_pos hc] at hite
      cases hite
    · rw [if_neg hc] at hite
      cases hite
      exact ⟨hp, rfl, hc⟩
  · rintro ⟨hp, hdays, hc⟩
    refine ⟨(g.fromDate, g.toDate), hp, ?_⟩
    rw [if_neg (by rw [← hdays]; exact hc)]
    cases g
    simp at hdays ⊢
    omega

theorem freq_validate_spec (dates : List Int) (tol : Int) (freq : String)
    (min_days max_days : Int) (h2 : 2 ≤ dates.length)
    (hb : (if freq = "quarterly" then some (85 - tol, 95 + tol)
           else if freq = "annual" then some (360 - tol, 370 + tol)
           else Option.none) = some (min_days, max_days)) :
    ∃ r, validate_time_series_frequency dates freq tol = .ok r ∧
      (r.passed = true ↔
        ∀ p ∈ (sort_by_key id dates).zip (sort_by_key id dates).tail,
          min_days ≤ p.2 - p.1 ∧ p.2 - p.1 ≤ max_days) ∧
      (∀ g : GapInfo,
        (∃ dts irr, r.details = some dts ∧ dts.irregular_intervals = some irr ∧
          g ∈ irr) ↔
        (r.passed = false ∧
         (g.fromDate, g.toDate) ∈ (sort_by_key id dates).zip (sort_by_key id dates).tail ∧
         g.days = g.toDate - g.fromDate ∧
         ¬ (min_days ≤ g.days ∧ g.days ≤ max_days))) := by
  simp only [validate_time_series_frequency]
  rw [if_neg (by omega), hb]
  dsimp only
  rw [if_neg (by
    simp only [List.length_map, List.length_zip, List.length_tail, length_sort_by_key]
    omega)]
  split
  · rename_i h0
    rw [List.length_eq_zero] at h0
    refine ⟨_, rfl, ?_, ?_⟩
    · simp only [true_iff]
      exact (freq_pairs_irr_eq_nil _ _ _).mp h0
    · intro g
      constructor
      · rintro ⟨dts, irr, hdts, hirr, -⟩
        cases hdts
        cases hirr
      · rintro ⟨hfalse, -⟩
        cases hfalse
  · rename_i h0
    refine ⟨_, rfl, ?_, ?_⟩
    · constructor
      · intro hfalse
        cases hfalse
      · intro hall
        exact absurd (by rw [(freq_pairs_irr_eq_nil _ _ _).mpr hall]; rfl) h0
    · intro g
      constructor
      · rintro ⟨dts, irr, hdts, hirr, hg⟩
        cases hdts
        cases hirr
        exact ⟨rfl, (freq_pairs_mem_irr _ _ _ g).mp hg⟩
      · rintro ⟨-, hmem, hdays, hc⟩
        exact ⟨_, _, rfl, rfl, (freq_pairs_mem_irr _ _ _ g).mpr ⟨hmem, hdays, hc⟩⟩

/-- Claim C9 as stated is false on the band: at the default tolerance of 10
days the quarterly acceptance band is `[85 − 10, 95 + 10] = [75, 105]`, not
`90 ± 10 = [80, 100]` — the 78-day gap between days 0 and 78 lies outside
`90 ± 10` yet is NOT flagged: the check passes with no irregular interval
reported. -/
theorem validate_time_series_frequency_counterexample :
    validate_time_series_frequency [0, 78] "quarterly" 10 =
      .ok { passed := true, severity := "info", message := .regular,
            details := some ⟨"quarterly", 78, some [78], Option.none⟩ } ∧
    ¬ ((90 : Int) - 10 ≤ 78 ∧ (78 : Int) ≤ 90 + 10) := by
  constructor
  · norm_num [validate_time_series_frequency, sort_by_key, insert_sorted]
  · norm_num

/-- Claim C9, amended: for at least two statement dates,
`validate_time_series_frequency` fails exactly when some gap between
consecutive sorted dates falls outside `[85 − tolerance, 95 + tolerance]`
days for quarterly cadence (`[75, 105]` at the default tolerance of 10) or
outside `[360 − tolerance, 370 + tolerance]` for annual, and the reported
`irregular_intervals` details list exactly the out-of-band gaps,
individually, while in-band gaps cause no failure. -/
theorem validate_time_series_frequency_spec (dates : List Int) (tol : Int)
    (h2 : 2 ≤ dates.length) :
    (∃ r, validate_time_series_frequency dates "quarterly" tol = .ok r ∧
      (r.passed = true ↔
        ∀ p ∈ (sort_by_key id dates).zip (sort_by_key id dates).tail,
          85 - tol ≤ p.2 - p.1 ∧ p.2 - p.1 ≤ 95 + tol) ∧
      (∀ g : GapInfo,
        (∃ dts irr, r.details = some dts ∧ dts.irregular_intervals = some irr ∧
          g ∈ irr) ↔
        (r.passed = false ∧
         (g.fromDate, g.toDate) ∈ (sort_by_key id dates).zip (sort_by_key id dates).tail ∧
         g.days = g.toDate - g.fromDate ∧
         ¬ (85 - tol ≤ g.days ∧ g.days ≤ 95 + tol)))) ∧
    (∃ r, validate_time_series_frequency dates "annual" tol = .ok r ∧
      (r.passed = true ↔
        ∀ p ∈ (sort_by_key id dates).zip (sort_by_key id dates).tail,
          360 - tol ≤ p.2 - p.1 ∧ p.2 - p.1 ≤ 370 + tol) ∧
      (∀ g : GapInfo,
        (∃ dts irr, r.details = some dts ∧ dts.irregular_intervals = some irr ∧
          g ∈ irr) ↔
        (r.passed = false ∧
         (g.fromDate, g.toDate) ∈ (sort_by_key id dates).zip (sort_by_key id dates).tail ∧
         g.days = g.toDate - g.fromDate ∧
         ¬ (360 - tol ≤ g.days ∧ g.days ≤ 370 + tol)))) :=
  ⟨freq_validate_spec dates tol "quarterly" (85 - tol) (95 + tol) h2 (by simp),
   freq_validate_spec dates tol "annual" (360 - tol) (370 + tol) h2 (by simp)⟩

/-- Witness for `validate_time_series_frequency_spec` at dates
`[0, 91, 230]` with tolerance 10: the 91-day gap is in band, the 139-day gap
is flagged, so the check fails. -/
theorem validate_time_series_frequency_spec_witness :
    ∃ r, validate_time_series_frequency [0, 91, 230] "quarterly" 10 = .ok r ∧
      (r.passed = true ↔
        ∀ p ∈ (sort_by_key id [0, 91, 230]).zip (sort_by_key id [0, 91, 230]).tail,
          85 - 10 ≤ p.2 - p.1 ∧ p.2 - p.1 ≤ 95 + 10) ∧
      (∀ g : GapInfo,
        (∃ dts irr, r.details = some dts ∧ dts.irregular_intervals = some irr ∧
          g ∈ irr) ↔
        (r.passed = false ∧
         (g.fromDate, g.toDate) ∈
           (sort_by_key id [0, 91, 230]).zip (sort_by_key id [0, 91, 230]).tail ∧
         g.days = g.toDate - g.fromDate ∧
         ¬ (85 - 10 ≤ g.days ∧ g.days ≤ 95 + 10))) :=
  (validate_time_series_frequency_spec [0, 91, 230] 10 (by decide)).1

theorem convert_series_no_apply (s : Series) (fx : Option ℚ) :
    convert_series s fx false = s := by
  simp [convert_series]

theorem compute_dcf_defaults_ok (fcf nd sh : Option ℚ) :
    ∃ d, compute_dcf fcf nd sh (1/10) (1/20) (1/50) 5 = .ok d := by
  match fcf with
  | Option.none => exact ⟨Option.none, rfl⟩
  | some v =>
    by_cases hv : v ≤ 0
    · refine ⟨Option.none, ?_⟩
      simp only [compute_dcf]
      rw [if_pos hv]
    · obtain ⟨q, hq⟩ := pv_sum_ok v (1/20) (1/10) (by norm_num) 5
      simp only [compute_dcf, hq]
      rw [if_neg hv, if_neg (by norm_num : ¬((1:ℚ)/10 - 1/50 = 0)),
        if_neg (by norm_num : ¬((1 + (1:ℚ)/10) ^ (5:ℕ) = 0))]
      match nd with
      | Option.none => exact ⟨_, rfl⟩
      | some nd0 => exact ⟨_, rfl⟩

/-- Claim C3: when market and financial currencies differ and the FX fetch
fails (returns no rate), `build_valuation` still returns a complete
valuation payload, with `fx_rate` falling back to 1, `currency.converted =
false`, and every snapshot series retained unconverted: the snapshot-point
counts equal the lengths of the original series and the whole history block
is computed from the original, unconverted series. -/
theorem build_valuation_fx_fallback (m f : String) (hne : m ≠ f)
    (generated_at : Int) (price_series : Series) (analysis : AnalysisInput) :
    ∃ val, build_valuation Option.none generated_at ⟨some m, some f⟩
        price_series analysis = .ok val ∧
      val.currency = ⟨some m, some f, 1, false⟩ ∧
      val.window.snapshot_points =
        ⟨(to_series analysis.eps_ttm).length, (to_series analysis.sales_ttm).length,
         (to_series analysis.ebitda_ttm).length,
         (to_series analysis.book_per_share).length,
         (to_series analysis.net_debt_per_share).length,
         (to_series analysis.shares_outstanding).length⟩ ∧
      val.history.pe = series_to_dict (divide_series price_series
        (align_to_prices (to_series analysis.eps_ttm) price_series) true) ∧
      val.history.ps = series_to_dict (divide_series price_series
        (align_to_prices (to_series analysis.sales_ttm) price_series) true) ∧
      val.history.pb = series_to_dict (divide_series price_series
        (align_to_prices (to_series analysis.book_per_share) price_series) true) ∧
      val.history.ev_to_ebitda = series_to_dict (divide_series
        (add_series price_series
          (align_to_prices (to_series analysis.net_debt_per_share) price_series))
        (align_to_prices (to_series analysis.ebitda_ttm) price_series) true) := by
  have hb : (m != f) = true := bne_iff_ne.mpr hne
  obtain ⟨d, hd⟩ := compute_dcf_defaults_ok
    (latest_value (align_to_prices (to_series analysis.free_cash_flow) price_series))
    (latest_value (align_to_prices (to_series analysis.net_debt) price_series))
    (latest_value (align_to_prices (to_series analysis.shares_outstanding) price_series))
  simp only [build_valuation, hb, if_true, convert_series_no_apply, hd]
  exact ⟨_, rfl, rfl, rfl, rfl, rfl, rfl, rfl⟩

/-- Witness for `build_valuation_fx_fallback` at `USD`/`CNY` with empty
series. -/
theorem build_valuation_fx_fallback_witness :
    ∃ val, build_valuation Option.none 0 ⟨some "USD", some "CNY"⟩ []
        ⟨Option.none, [], [], [], [], [], [], [], []⟩ = .ok val ∧
      val.currency = ⟨some "USD", some "CNY", 1, false⟩ ∧
      val.window.snapshot_points =
        ⟨(to_series []).length, (to_series []).length, (to_series []).length,
         (to_series []).length, (to_series []).length, (to_series []).length⟩ ∧
      val.history.pe = series_to_dict (divide_series []
        (align_to_prices (to_series []) []) true) ∧
      val.history.ps = series_to_dict (divide_series []
        (align_to_prices (to_series []) []) true) ∧
      val.history.pb = series_to_dict (divide_series []
        (align_to_prices (to_series []) []) true) ∧
      val.history.ev_to_ebitda = series_to_dict (divide_series
        (add_series [] (align_to_prices (to_series []) []))
        (align_to_prices (to_series []) []) true) :=
  build_valuation_fx_fallback "USD" "CNY" (by decide) 0 []
    ⟨Option.none, [], [], [], [], [], [], [], []⟩
